import Mathlib

/-!
Verification of the pytdbot_sync client (src/pytdbot_sync) against its
natural-language specification.  The Python source is shallowly embedded:
pure helpers become Lean functions, the effectful parts of the client
(request sending, sleeping, corrective lookups, handler dispatch) are
modelled as functions producing explicit traces of the actions performed,
parameterised by an oracle environment supplying the transport's responses.
-/

namespace PytdbotSync

/-! ## Python string and integer primitives

Models of the Python builtins the client relies on:
str.removeprefix (PEP 616) and int(str) conversion (optional surrounding
whitespace, optional sign, ASCII digits with single underscores allowed
between digits). -/

/-- Python str.removeprefix: drop the leading occurrence of the given
marker when present, otherwise return the string unchanged. -/
def pyDropPre (pre s : String) : String :=
  if pre.data.isPrefixOf s.data then String.mk (s.data.drop pre.data.length) else s

/-- Whitespace characters stripped by Python int(str). -/
def isPyWhitespace (c : Char) : Bool :=
  c = ' ' || c = '\t' || c = '\n' || c = '\r' || c = '\x0b' || c = '\x0c'

/-- Strip leading and trailing whitespace from a character list. -/
def stripWsChars (cs : List Char) : List Char :=
  ((cs.dropWhile isPyWhitespace).reverse.dropWhile isPyWhitespace).reverse

/-- Continuation of the digit scanner: after at least one digit has been
read, accept further digits, each optionally preceded by one underscore. -/
def pyDigitsGo : Nat → List Char → Option Nat
  | acc, [] => some acc
  | acc, '_' :: c :: rest =>
      if c.isDigit then pyDigitsGo (acc * 10 + (c.toNat - 48)) rest else none
  | _, ['_'] => none
  | acc, c :: rest =>
      if c.isDigit then pyDigitsGo (acc * 10 + (c.toNat - 48)) rest else none

/-- Scan a non-empty digit run (Python int digit-group syntax: digits with
single underscores strictly between digits). -/
def pyParseDigits : List Char → Option Nat
  | [] => none
  | c :: rest => if c.isDigit then pyDigitsGo (c.toNat - 48) rest else none

/-- Python int(s) for a string argument: strip whitespace, optional sign,
then a digit group.  Returns none where Python raises ValueError. -/
def pyInt (s : String) : Option Int :=
  match stripWsChars s.data with
  | '+' :: rest => (pyParseDigits rest).map Int.ofNat
  | '-' :: rest => (pyParseDigits rest).map (fun n => -(Int.ofNat n : Int))
  | cs => (pyParseDigits cs).map Int.ofNat

/-! ## Rate-limit message parsing (Client.get_retry_after_time) -/

/-- The constant self._retry_after_prefex set in Client.__init__. -/
def retryAfterMarker : String := "Too Many Requests: retry after "

/-- Client.get_retry_after_time: int(error_message.removeprefix(marker)),
with every exception mapped to 0. -/
def get_retry_after_time (error_message : String) : Int :=
  match pyInt (pyDropPre retryAfterMarker error_message) with
  | some n => n
  | none => 0

/-- Client.__init__ computes self.sleep_threshold as the given value when
it is an int and 0 otherwise (the default argument is None). -/
def mkSleepThreshold (given : Option Int) : Int :=
  match given with
  | some n => n
  | none => 0

/-! ## The invoke retry policies (Client.invoke)

invoke sends the request, blocks on its Result future, and applies two
retry policies to an error outcome: the 429 rate-limit backoff and the
"Chat not found" stale-chat recovery.  The Result future itself is not
under src/; modelled from the spec: a Call Future retains the request
payload, wait blocks until the transport's response arrives, and reset
re-registers the same logical request under a fresh correlation key.
The oracle Env supplies the transport outcome of the first send, the
outcome of a resend, and whether the corrective getChat call succeeds. -/

/-- Configuration fields of the Client that invoke reads. -/
structure ClientCfg where
  sleep_threshold : Int
  use_message_database : Bool
deriving DecidableEq

/-- Outcome of one call as seen by the caller of invoke. -/
inductive Outcome
  | ok (data : String)
  | error (code : Int) (message : String)
deriving DecidableEq

/-- Request payload fields that invoke inspects.  The @type discriminator
is kept abstract; the optional fields model dict key presence. -/
structure Request where
  ty : String
  chat_id : Option Int
  reply_to_message_id : Option Int
  message_id : Option Int
deriving DecidableEq

/-- Observable actions performed by invoke. -/
inductive Action
  | send (r : Request)
  | sleepFor (seconds : Int)
  | getChatCall (chatId : Int)
  | getMessageCall (chatId messageId : Int)
deriving DecidableEq

/-- Oracle for one invoke call: resp1 is the transport outcome of the
first send, resp2 of a resend (at most one happens), getChatOk tells
whether the corrective getChat lookup succeeds. -/
structure Env where
  resp1 : Outcome
  resp2 : Outcome
  getChatOk : Bool
deriving DecidableEq

/-- The message id invoke loads to avoid MESSAGE_NOT_FOUND: the request's
reply_to_message_id when that key is present, else its message_id when
present, else 0. -/
def effMessageId (req : Request) : Int :=
  match req.reply_to_message_id with
  | some m => m
  | none =>
    match req.message_id with
    | some m => m
    | none => 0

/-- Client.invoke: send and wait; on a 429 error sleep and resend once
when the retry-after value is within the threshold; on a 400 Chat not
found error with caching disabled, load the chat (and the referenced
message) and resend once when the chat loads.  Returns the trace of
actions together with the outcome the caller observes. -/
def invoke (c : ClientCfg) (env : Env) (req : Request) : List Action × Outcome :=
  match env.resp1 with
  | Outcome.ok d => ([Action.send req], Outcome.ok d)
  | Outcome.error code msg =>
    if code = 429 then
      let retry_after := get_retry_after_time msg
      if retry_after ≤ c.sleep_threshold then
        ([Action.send req, Action.sleepFor retry_after, Action.send req], env.resp2)
      else
        ([Action.send req], Outcome.error code msg)
    else if c.use_message_database = false ∧ code = 400 ∧ msg = "Chat not found"
        ∧ req.chat_id.isSome then
      match req.chat_id with
      | some chatId =>
        if env.getChatOk then
          ([Action.send req, Action.getChatCall chatId]
            ++ (if 0 < effMessageId req
                then [Action.getMessageCall chatId (effMessageId req)] else [])
            ++ [Action.send req], env.resp2)
        else
          ([Action.send req, Action.getChatCall chatId], Outcome.error code msg)
      | none => ([Action.send req], Outcome.error code msg)
    else
      ([Action.send req], Outcome.error code msg)

end PytdbotSync

namespace PytdbotSync

/-- C1: on a 429 outcome with retry-after value N, invoke sleeps N and
resends exactly once when N is within the sleep threshold, and the caller
sees the resend's outcome; when N exceeds the threshold the caller sees
the original 429 error unchanged. -/
theorem invoke_rate_limit_policy (c : ClientCfg) (env : Env) (req : Request)
    (code : Int) (msg : String) (N : Int)
    (h1 : env.resp1 = Outcome.error code msg) (h2 : code = 429)
    (hN : get_retry_after_time msg = N) :
    (N ≤ c.sleep_threshold →
      invoke c env req =
        ([Action.send req, Action.sleepFor N, Action.send req], env.resp2)) ∧
    (c.sleep_threshold < N →
      invoke c env req = ([Action.send req], Outcome.error code msg)) := by
  subst h2
  constructor
  · intro hle
    simp [invoke, h1, hN, hle]
  · intro hgt
    have hnle : ¬ get_retry_after_time msg ≤ c.sleep_threshold := by omega
    simp [invoke, h1, hnle]

/-- Witness for invoke_rate_limit_policy at threshold 3 and message
"Too Many Requests: retry after 3". -/
theorem invoke_rate_limit_policy_witness :
    invoke ⟨3, true⟩
      ⟨Outcome.error 429 "Too Many Requests: retry after 3", Outcome.ok "v", true⟩
      ⟨"getOption", none, none, none⟩ =
      ([Action.send ⟨"getOption", none, none, none⟩, Action.sleepFor 3,
        Action.send ⟨"getOption", none, none, none⟩], Outcome.ok "v") :=
  (invoke_rate_limit_policy ⟨3, true⟩
      ⟨Outcome.error 429 "Too Many Requests: retry after 3", Outcome.ok "v", true⟩
      ⟨"getOption", none, none, none⟩ 429 "Too Many Requests: retry after 3" 3
      rfl rfl (by decide)).1 (by decide)

/-- C2: with message-database caching disabled, on a 400 "Chat not found"
outcome for a request carrying a chat_id, invoke performs a corrective
getChat lookup (and a getMessage lookup when the request references a
positive message id); when the chat loads, the request is resent exactly
once and the caller sees the resend's outcome; when the lookup fails the
caller sees the original error unmodified. -/
theorem invoke_stale_chat_policy (c : ClientCfg) (env : Env) (req : Request)
    (cid : Int)
    (hdb : c.use_message_database = false)
    (h1 : env.resp1 = Outcome.error 400 "Chat not found")
    (hchat : req.chat_id = some cid) :
    (env.getChatOk = true →
      invoke c env req =
        ([Action.send req, Action.getChatCall cid]
          ++ (if 0 < effMessageId req
              then [Action.getMessageCall cid (effMessageId req)] else [])
          ++ [Action.send req], env.resp2)) ∧
    (env.getChatOk = false →
      invoke c env req =
        ([Action.send req, Action.getChatCall cid],
          Outcome.error 400 "Chat not found")) := by
  constructor
  · intro hok
    simp [invoke, h1, hdb, hchat, hok]
  · intro hfail
    simp [invoke, h1, hdb, hchat, hfail]

/-- Witness for invoke_stale_chat_policy at chat_id 42 with a successful
corrective lookup. -/
theorem invoke_stale_chat_policy_witness :
    invoke ⟨0, false⟩
      ⟨Outcome.error 400 "Chat not found", Outcome.ok "sent", true⟩
      ⟨"sendMessage", some 42, none, none⟩ =
      ([Action.send ⟨"sendMessage", some 42, none, none⟩, Action.getChatCall 42,
        Action.send ⟨"sendMessage", some 42, none, none⟩], Outcome.ok "sent") :=
  (invoke_stale_chat_policy ⟨0, false⟩
      ⟨Outcome.error 400 "Chat not found", Outcome.ok "sent", true⟩
      ⟨"sendMessage", some 42, none, none⟩ 42 rfl rfl rfl).1 rfl

/-- C10: get_retry_after_time returns n exactly when stripping the
rate-limit marker leaves a string Python parses as the integer n, and 0
when the remainder does not parse; stripping an absent marker leaves the
message unchanged; the default sleep threshold is 0, so an unparseable
message yields a retry-after value within the default threshold. -/
theorem get_retry_after_time_spec (msg : String) (n : Int) :
    (get_retry_after_time msg = n ↔
      (pyInt (pyDropPre retryAfterMarker msg) = some n ∨
       (pyInt (pyDropPre retryAfterMarker msg) = none ∧ n = 0))) ∧
    (retryAfterMarker.data.isPrefixOf msg.data = false →
      pyDropPre retryAfterMarker msg = msg) ∧
    mkSleepThreshold none = 0 ∧
    (pyInt (pyDropPre retryAfterMarker msg) = none →
      get_retry_after_time msg ≤ mkSleepThreshold none) := by
  refine ⟨?_, ?_, rfl, ?_⟩
  · cases hp : pyInt (pyDropPre retryAfterMarker msg) with
    | none => simp [get_retry_after_time, hp, eq_comm]
    | some m => simp [get_retry_after_time, hp, eq_comm]
  · intro habs
    simp [pyDropPre, habs]
  · intro hp
    simp [get_retry_after_time, hp, mkSleepThreshold]

/-- Witness for get_retry_after_time_spec: an unparseable rate-limit
message yields 0, within the default threshold. -/
theorem get_retry_after_time_spec_witness :
    get_retry_after_time "Too Many Requests: retry after soon" ≤
      mkSleepThreshold none :=
  (get_retry_after_time_spec "Too Many Requests: retry after soon" 0).2.2.2
    (by decide)

/-! ## Authorization State Machine (Client.__handle_authorization_state)

The dispatcher sets the stored authorization state to the update's new
state and then selects one authorization step through an elif chain.
The chain is gated on self.__login; the WaitPassword branch additionally
requires the previous stored state to differ from WaitPassword, and the
Closed branch requires that closing was not locally initiated. -/

/-- The single authorization step Client.__handle_authorization_state
selects for one updateAuthorizationState update (noop when no branch of
the elif chain fires). -/
inductive AuthStep
  | setTdParams
  | waitPhoneNumber
  | waitEmailAddress
  | waitEmailCode
  | waitCode
  | waitRegistration
  | waitPassword
  | stopClient
  | noop
deriving DecidableEq

/-- Client.__handle_authorization_state for an updateAuthorizationState
update carrying newState: old is the previously stored authorization
state (None before the first update), login is self.__login, isClosing
is self.__is_closing. -/
def handle_authorization_state (login : Bool) (old : Option String)
    (isClosing : Bool) (newState : String) : AuthStep :=
  if login then
    if newState = "authorizationStateWaitTdlibParameters" then AuthStep.setTdParams
    else if newState = "authorizationStateWaitPhoneNumber" then AuthStep.waitPhoneNumber
    else if newState = "authorizationStateWaitEmailAddress" then AuthStep.waitEmailAddress
    else if newState = "authorizationStateWaitEmailCode" then AuthStep.waitEmailCode
    else if newState = "authorizationStateWaitCode" then AuthStep.waitCode
    else if newState = "authorizationStateWaitRegistration" then AuthStep.waitRegistration
    else if old ≠ some "authorizationStateWaitPassword"
        ∧ newState = "authorizationStateWaitPassword" then AuthStep.waitPassword
    else if newState = "authorizationStateClosed" ∧ isClosing = false then AuthStep.stopClient
    else AuthStep.noop
  else AuthStep.noop

/-- Client.__handle_authorization_state_wait_password opens with a guard
returning early unless the current stored state is WaitPassword; when the
dispatcher selects the wait-password step the stored state has just been
set to the update's new state. -/
def wait_password_guard_passes (authorization_state : String) : Bool :=
  authorization_state = "authorizationStateWaitPassword"

/-- The wait-password step (prompt and checkAuthenticationPassword) is
processed for an update exactly when the dispatcher selects it and the
handler's own state guard passes. -/
def processes_wait_password (login : Bool) (old : Option String)
    (isClosing : Bool) (newState : String) : Bool :=
  decide (handle_authorization_state login old isClosing newState
      = AuthStep.waitPassword)
    && wait_password_guard_passes newState

/-- C3 counterexample: a WaitPassword update arriving from WaitCode (a
previous state other than WaitPassword) is processed, not a no-op, so the
claim as stated is false. -/
theorem wait_password_from_other_state_processed :
    processes_wait_password true (some "authorizationStateWaitCode") false
      "authorizationStateWaitPassword" = true := by decide

/-- C3 amended: during login, a WaitPassword update is a no-op exactly
when the previous stored state was WaitPassword itself; from every other
previous state the wait-password step is processed. -/
theorem wait_password_reentry_noop (old : Option String) (isClosing : Bool) :
    (old = some "authorizationStateWaitPassword" →
      handle_authorization_state true old isClosing
        "authorizationStateWaitPassword" = AuthStep.noop ∧
      processes_wait_password true old isClosing
        "authorizationStateWaitPassword" = false) ∧
    (old ≠ some "authorizationStateWaitPassword" →
      handle_authorization_state true old isClosing
        "authorizationStateWaitPassword" = AuthStep.waitPassword ∧
      processes_wait_password true old isClosing
        "authorizationStateWaitPassword" = true) := by
  constructor
  · intro hold
    subst hold
    cases isClosing <;> exact ⟨by decide, by decide⟩
  · intro hold
    refine ⟨?_, ?_⟩
    · simp [handle_authorization_state, hold]
    · simp [processes_wait_password, handle_authorization_state, hold,
        wait_password_guard_passes]

/-- Witness for wait_password_reentry_noop: re-entry from WaitPassword is
a no-op. -/
theorem wait_password_reentry_noop_witness :
    handle_authorization_state true (some "authorizationStateWaitPassword") false
      "authorizationStateWaitPassword" = AuthStep.noop :=
  ((wait_password_reentry_noop (some "authorizationStateWaitPassword") false).1
    rfl).1

/-! ## The wait-email-address step (C4)

Client.__handle_authorization_state_wait_email_address opens with the
guard: if self.authorization_state == "authorizationStateWaitEmailAddress"
then return.  Every sibling step handler guards with != instead; since
the dispatcher only selects this step when the state equals
WaitEmailAddress, the guard as written makes the whole step dead code.
The prompt loop is modelled with the pending interactive attempts as an
explicit list: each attempt is the entered email address together with
whether its setAuthenticationEmailAddress submission succeeds. -/

/-- The prompt-and-submit loop body of the wait-email-address step:
returns the email addresses submitted, stopping after the first
successful submission. -/
def emailPromptLoop : List (String × Bool) → List String
  | [] => []
  | (address, okFlag) :: rest =>
      address :: (if okFlag then [] else emailPromptLoop rest)

/-- Client.__handle_authorization_state_wait_email_address, including its
opening guard exactly as written in the source (an equality test followed
by return). -/
def wait_email_address_step (authorization_state : String)
    (attempts : List (String × Bool)) : List String :=
  if authorization_state = "authorizationStateWaitEmailAddress" then []
  else emailPromptLoop attempts

/-- C4: evaluated at the failing input, the wait-email-address step
submits nothing even though one successful interactive attempt is
available, because its opening guard is inverted; the claim (and every
sibling handler) requires the prompt-and-submit loop to run, which would
submit the entered address. -/
theorem wait_email_address_step_dead :
    wait_email_address_step "authorizationStateWaitEmailAddress"
      [("user@example.com", true)] = [] ∧
    emailPromptLoop [("user@example.com", true)] = ["user@example.com"] := by
  exact ⟨rfl, rfl⟩

/-! ## Deferred decorator binding (C8)

Handlers.decorators.finalizer: the returned decorator registers func
directly when the receiver is a Client; otherwise it stores a deferred
Handler on func._handler.  In the branch where the receiver is a Filter
the source constructs Handler(func, "initializer", self, position) —
binding the deferred handler to the initializer phase, while the
enclosing decorator, its docstring, and the generic deferred branch all
bind to "finalizer". -/

/-- The kind of receiver the decorator was invoked on. -/
inductive DecoReceiver
  | client
  | filterObj
  | other
deriving DecidableEq

/-- Result of applying the decorator returned by finalizer(...) to a
function: unchanged when func already carries a _handler attribute,
registered immediately on a Client receiver, or deferred with the stored
handler's update_type. -/
inductive DecoResult
  | unchanged
  | registered (update_type : String)
  | deferred (update_type : String)
deriving DecidableEq

/-- The decorator produced by Decorators.finalizer, applied to a function
that carries a _handler attribute iff hasHandlerAttr. -/
def finalizer_apply (receiver : DecoReceiver) (hasHandlerAttr : Bool) : DecoResult :=
  if hasHandlerAttr then DecoResult.unchanged
  else
    match receiver with
    | DecoReceiver.client => DecoResult.registered "finalizer"
    | DecoReceiver.filterObj => DecoResult.deferred "initializer"
    | DecoReceiver.other => DecoResult.deferred "finalizer"

/-- The decorator produced by Decorators.initializer (for comparison: its
Filter branch correctly defers to the initializer phase). -/
def initializer_apply (receiver : DecoReceiver) (hasHandlerAttr : Bool) : DecoResult :=
  if hasHandlerAttr then DecoResult.unchanged
  else
    match receiver with
    | DecoReceiver.client => DecoResult.registered "initializer"
    | DecoReceiver.filterObj => DecoResult.deferred "initializer"
    | DecoReceiver.other => DecoResult.deferred "initializer"

/-- C8: a fresh callback registered through the finalizer decorator with
a Filter receiver is deferred bound to the initializer (pre) phase, not
the finalizer (post) phase required by the claim and by the decorator's
own documentation; the generic deferred branch shows the intended
binding. -/
theorem finalizer_filter_binds_initializer :
    finalizer_apply DecoReceiver.filterObj false = DecoResult.deferred "initializer" ∧
    finalizer_apply DecoReceiver.other false = DecoResult.deferred "finalizer" ∧
    DecoResult.deferred "initializer" ≠ DecoResult.deferred "finalizer" := by
  refine ⟨rfl, rfl, ?_⟩
  decide

/-! ## Handler registry ordering (Client.add_handler / remove_handler)

A handler list entry keeps the handler's registration index (standing in
for the Python function object's identity) and its explicit position.
add_handler inserts at the list index given by the position (Python
list.insert semantics, clamped, negative indices from the end) or appends
when the position is None, then re-sorts with the stable built-in sort
under the key (position is None, position).  remove_handler removes the
first entry with the matching function and re-sorts.  Python's list.sort
is stable; List.insertionSort is the stable sort used to model it. -/

/-- One registered handler: registration index and explicit position. -/
structure HandlerEntry where
  regId : Nat
  position : Option Int
deriving DecidableEq

/-- The sort key comparison (x.position is None, x.position), as a
Boolean total preorder: entries with explicit positions come first in
ascending order, position-None entries after all of them. -/
def posKeyLeB : Option Int → Option Int → Bool
  | none, none => true
  | none, some _ => false
  | some _, none => true
  | some x, some y => decide (x ≤ y)

/-- Ordering relation on handler entries induced by the sort key. -/
def hle (a b : HandlerEntry) : Prop := posKeyLeB a.position b.position = true

instance : DecidableRel hle := fun a b => by
  unfold hle
  infer_instance

theorem posKeyLeB_total (p q : Option Int) :
    posKeyLeB p q = true ∨ posKeyLeB q p = true := by
  rcases p with _ | x <;> rcases q with _ | y <;> simp [posKeyLeB] <;> omega

theorem posKeyLeB_trans (p q r : Option Int) (h1 : posKeyLeB p q = true)
    (h2 : posKeyLeB q r = true) : posKeyLeB p r = true := by
  rcases p with _ | x <;> rcases q with _ | y <;> rcases r with _ | z <;>
    simp_all [posKeyLeB] <;> omega

instance : IsTotal HandlerEntry hle where
  total a b := posKeyLeB_total a.position b.position

instance : IsTrans HandlerEntry hle where
  trans a b c hab hbc := posKeyLeB_trans a.position b.position c.position hab hbc

/-- Python list.insert(i, x): negative i counts from the end, and the
index is clamped into [0, len]. -/
def pyInsert (l : List HandlerEntry) (i : Int) (x : HandlerEntry) : List HandlerEntry :=
  let idx : Nat :=
    (if i < 0 then max ((l.length : Int) + i) 0 else min i (l.length : Int)).toNat
  l.take idx ++ x :: l.drop idx

/-- Client.add_handler restricted to one update type's list: insert at
the position index (or append when the position is None), then stable
sort by the key. -/
def add_handler (l : List HandlerEntry) (x : HandlerEntry) : List HandlerEntry :=
  let inserted :=
    match x.position with
    | some p => pyInsert l p x
    | none => l ++ [x]
  inserted.insertionSort hle

/-- Client.remove_handler restricted to one update type's list: remove
the first entry whose function matches, then stable sort; when nothing
matches the list is returned unchanged. -/
def remove_handler (l : List HandlerEntry) (fid : Nat) : List HandlerEntry :=
  if l.any (fun x => x.regId = fid) then
    (l.eraseP (fun x => x.regId = fid)).insertionSort hle
  else l

/-- One registration-surface operation. -/
inductive RegOp
  | add (position : Option Int)
  | remove (fid : Nat)

/-- Apply a sequence of add_handler / remove_handler calls starting from
the list l, assigning registration indices from fresh upwards. -/
def applyRegOps : List HandlerEntry → Nat → List RegOp → List HandlerEntry
  | l, _, [] => l
  | l, fresh, RegOp.add p :: rest =>
      applyRegOps (add_handler l ⟨fresh, p⟩) (fresh + 1) rest
  | l, fresh, RegOp.remove fid :: rest =>
      applyRegOps (remove_handler l fid) fresh rest

theorem sorted_add_handler (l : List HandlerEntry) (x : HandlerEntry) :
    (add_handler l x).Sorted hle := by
  unfold add_handler
  exact List.sorted_insertionSort hle _

theorem sorted_remove_handler (l : List HandlerEntry) (fid : Nat)
    (hl : l.Sorted hle) : (remove_handler l fid).Sorted hle := by
  unfold remove_handler
  split
  · exact List.sorted_insertionSort hle _
  · exact hl

theorem sorted_applyRegOps (ops : List RegOp) :
    ∀ (l : List HandlerEntry) (fresh : Nat), l.Sorted hle →
      (applyRegOps l fresh ops).Sorted hle := by
  induction ops with
  | nil => intro l fresh hl; exact hl
  | cons op rest ih =>
    intro l fresh hl
    cases op with
    | add p => exact ih _ _ (sorted_add_handler l ⟨fresh, p⟩)
    | remove fid => exact ih _ _ (sorted_remove_handler l fid hl)

/-- C5 counterexample: three handlers all registered with explicit
position 0 end up in the reverse of their registration order (each new
one is inserted at index 0 and the stable re-sort keeps it there), so the
tie-breaking part of the claim is false. -/
theorem equal_positions_reverse_registration_order :
    (applyRegOps [] 0
        [RegOp.add (some 0), RegOp.add (some 0), RegOp.add (some 0)]).map
      HandlerEntry.regId = [2, 1, 0] := by decide

/-- C5 amended: after every sequence of add_handler and remove_handler
calls the handler list is sorted ascending by explicit position with
position-None handlers after all explicitly positioned ones, and four
handlers registered with positions [2, 0, None, 1] end up ordered
[0, 1, 2, None]; handlers sharing an explicit position, however, are not
generally kept in registration order, since each new handler is first
inserted at the list index equal to its position before the stable
re-sort. -/
theorem handler_list_always_sorted (ops : List RegOp) :
    (applyRegOps [] 0 ops).Sorted hle ∧
    (applyRegOps [] 0
        [RegOp.add (some 2), RegOp.add (some 0), RegOp.add none,
         RegOp.add (some 1)]).map HandlerEntry.position =
      [some 0, some 1, some 2, none] := by
  refine ⟨sorted_applyRegOps ops [] 0 List.sorted_nil, by decide⟩

/-- Witness for handler_list_always_sorted: the positions [2, 0, None, 1]
registration example, read off the theorem at a concrete sequence. -/
theorem handler_list_always_sorted_witness :
    (applyRegOps [] 0
        [RegOp.add (some 2), RegOp.add (some 0), RegOp.add none,
         RegOp.add (some 1)]).map HandlerEntry.position =
      [some 0, some 1, some 2, none] :=
  (handler_list_always_sorted []).2

/-! ## Handler chain execution (Client._update_worker and the phase
runners __run_initializers / __run_handlers / __run_finalizers)

Each phase runner walks its handler list: a handler whose filter rejects
the event is skipped; StopHandlers raised by a handler is re-raised,
ending the phase; any other exception is logged and the walk continues.
The worker runs initializers then main handlers inside a try whose
except StopHandlers passes, and runs finalizers in the finally block.
One dispatch of one event is modelled by fixing, per handler, the filter
verdict on this event and the handler body's behaviour. -/

/-- How one handler behaves on the event being dispatched. -/
inductive HBehavior
  | ok
  | raisesStop
  | raisesOther
deriving DecidableEq

/-- One registered handler as seen by one event dispatch. -/
structure RHandler where
  hid : Nat
  filterPass : Bool
  behavior : HBehavior
deriving DecidableEq

/-- One phase runner: returns the ids of the handlers whose bodies ran,
and whether the phase ended by re-raising StopHandlers. -/
def runPhase : List RHandler → List Nat × Bool
  | [] => ([], false)
  | h :: rest =>
    if h.filterPass = false then runPhase rest
    else
      match h.behavior with
      | HBehavior.raisesStop => ([h.hid], true)
      | _ =>
        let r := runPhase rest
        (h.hid :: r.1, r.2)

/-- The handler ids run in one full chain dispatch, by phase. -/
structure ChainTrace where
  initRun : List Nat
  mainRun : List Nat
  finalRun : List Nat
deriving DecidableEq

/-- The try/except StopHandlers/finally chain of Client._update_worker:
initializers, then main handlers unless the initializers stopped, then
finalizers unconditionally. -/
def chainTrace (inits mains finals : List RHandler) : ChainTrace :=
  let ri := runPhase inits
  let rm := if ri.2 then ([], true) else runPhase mains
  let rf := runPhase finals
  ⟨ri.1, rm.1, rf.1⟩

/-- Ids of the handlers whose filter accepts the event. -/
def applicableIds (l : List RHandler) : List Nat :=
  (l.filter (fun h => h.filterPass)).map RHandler.hid

theorem runPhase_no_stop (l : List RHandler)
    (h : ∀ x ∈ l, x.filterPass = true → x.behavior ≠ HBehavior.raisesStop) :
    runPhase l = (applicableIds l, false) := by
  induction l with
  | nil => rfl
  | cons a rest ih =>
    have hrest : ∀ x ∈ rest, x.filterPass = true →
        x.behavior ≠ HBehavior.raisesStop :=
      fun x hx => h x (List.mem_cons_of_mem a hx)
    rcases hfa : a.filterPass with _ | _
    · simp [runPhase, hfa, ih hrest, applicableIds]
    · have hba := h a (List.mem_cons_self a rest) hfa
      rw [runPhase]
      rw [hfa]
      simp only [Bool.true_eq_false, if_false]
      cases hb : a.behavior with
      | raisesStop => exact absurd hb hba
      | ok => simp [ih hrest, applicableIds, hfa]
      | raisesOther => simp [ih hrest, applicableIds, hfa]

theorem runPhase_append_no_stop (pre rest : List RHandler)
    (h : ∀ x ∈ pre, x.filterPass = true → x.behavior ≠ HBehavior.raisesStop) :
    runPhase (pre ++ rest) =
      (applicableIds pre ++ (runPhase rest).1, (runPhase rest).2) := by
  induction pre with
  | nil => simp [applicableIds]
  | cons a tail ih =>
    have htail : ∀ x ∈ tail, x.filterPass = true →
        x.behavior ≠ HBehavior.raisesStop :=
      fun x hx => h x (List.mem_cons_of_mem a hx)
    rcases hfa : a.filterPass with _ | _
    · simpa [runPhase, hfa, applicableIds] using ih htail
    · have hba := h a (List.mem_cons_self a tail) hfa
      rw [List.cons_append, runPhase]
      rw [hfa]
      simp only [Bool.true_eq_false, if_false]
      cases hb : a.behavior with
      | raisesStop => exact absurd hb hba
      | ok => simp [ih htail, applicableIds, hfa]
      | raisesOther => simp [ih htail, applicableIds, hfa]

theorem runPhase_stop_head (hs : RHandler) (post : List RHandler)
    (happ : hs.filterPass = true) (hstop : hs.behavior = HBehavior.raisesStop) :
    runPhase (hs :: post) = ([hs.hid], true) := by
  rw [runPhase]
  rw [happ]
  simp only [Bool.true_eq_false, if_false]
  rw [hstop]

/-- C6 counterexample: a main handler raises stop, and two applicable
finalizers are registered of which the first raises stop; the second
finalizer never runs (its id 2 appears zero times in the post-phase
trace), so the claim that every applicable post-phase handler still runs
exactly once is false. -/
theorem stop_in_finalizer_skips_rest :
    chainTrace [] [⟨0, true, HBehavior.raisesStop⟩]
        [⟨1, true, HBehavior.raisesStop⟩, ⟨2, true, HBehavior.ok⟩] =
      ⟨[], [0], [1]⟩ ∧
    (chainTrace [] [⟨0, true, HBehavior.raisesStop⟩]
        [⟨1, true, HBehavior.raisesStop⟩, ⟨2, true, HBehavior.ok⟩]).finalRun.count 2
      = 0 := by
  exact ⟨rfl, rfl⟩

/-- C6 amended: when no initializer raises stop and the first applicable
main handler that raises stop is hs, the main phase runs exactly the
applicable handlers before hs followed by hs itself (no later main
handler runs), and the post phase runs every applicable finalizer exactly
once provided no finalizer itself raises stop (a stop raised inside a
finalizer skips the remaining finalizers). -/
theorem stop_signal_semantics (inits pre post finals : List RHandler)
    (hs : RHandler)
    (hinit : ∀ x ∈ inits, x.filterPass = true → x.behavior ≠ HBehavior.raisesStop)
    (hpre : ∀ x ∈ pre, x.filterPass = true → x.behavior ≠ HBehavior.raisesStop)
    (happ : hs.filterPass = true) (hstop : hs.behavior = HBehavior.raisesStop)
    (hfin : ∀ x ∈ finals, x.filterPass = true → x.behavior ≠ HBehavior.raisesStop) :
    (chainTrace inits (pre ++ hs :: post) finals).mainRun =
        applicableIds pre ++ [hs.hid] ∧
    (chainTrace inits (pre ++ hs :: post) finals).finalRun =
        applicableIds finals ∧
    ((finals.map RHandler.hid).Nodup → ∀ x ∈ finals, x.filterPass = true →
      (chainTrace inits (pre ++ hs :: post) finals).finalRun.count x.hid = 1) := by
  have hmain : runPhase (pre ++ hs :: post) = (applicableIds pre ++ [hs.hid], true) := by
    rw [runPhase_append_no_stop pre (hs :: post) hpre,
      runPhase_stop_head hs post happ hstop]
  have hinits := runPhase_no_stop inits hinit
  have hfins := runPhase_no_stop finals hfin
  have htrace : chainTrace inits (pre ++ hs :: post) finals =
      ⟨applicableIds inits, applicableIds pre ++ [hs.hid], applicableIds finals⟩ := by
    unfold chainTrace
    rw [hinits, hmain, hfins]
    simp
  refine ⟨by rw [htrace], by rw [htrace], ?_⟩
  intro hnodup x hx hxf
  rw [htrace]
  have hsubf : List.Sublist (finals.filter (fun h => h.filterPass)) finals :=
    List.filter_sublist finals
  have hsub : List.Sublist (applicableIds finals) (finals.map RHandler.hid) :=
    hsubf.map RHandler.hid
  have hnd : (applicableIds finals).Nodup := hnodup.sublist hsub
  have hmem : x.hid ∈ applicableIds finals := by
    unfold applicableIds
    exact List.mem_map_of_mem RHandler.hid (List.mem_filter.mpr ⟨hx, by simp [hxf]⟩)
  exact List.count_eq_one_of_mem hnd hmem

/-- Witness for stop_signal_semantics: one ok main handler, one stopping
main handler, one skipped main handler, two applicable finalizers. -/
theorem stop_signal_semantics_witness :
    (chainTrace [] ([⟨0, true, HBehavior.ok⟩] ++ ⟨1, true, HBehavior.raisesStop⟩ ::
        [⟨2, true, HBehavior.ok⟩])
        [⟨3, true, HBehavior.ok⟩, ⟨4, true, HBehavior.ok⟩]).mainRun = [0, 1] ∧
    (chainTrace [] ([⟨0, true, HBehavior.ok⟩] ++ ⟨1, true, HBehavior.raisesStop⟩ ::
        [⟨2, true, HBehavior.ok⟩])
        [⟨3, true, HBehavior.ok⟩, ⟨4, true, HBehavior.ok⟩]).finalRun = [3, 4] :=
  ⟨(stop_signal_semantics [] [⟨0, true, HBehavior.ok⟩] [⟨2, true, HBehavior.ok⟩]
      [⟨3, true, HBehavior.ok⟩, ⟨4, true, HBehavior.ok⟩]
      ⟨1, true, HBehavior.raisesStop⟩ (by decide) (by decide) rfl rfl (by decide)).1,
   (stop_signal_semantics [] [⟨0, true, HBehavior.ok⟩] [⟨2, true, HBehavior.ok⟩]
      [⟨3, true, HBehavior.ok⟩, ⟨4, true, HBehavior.ok⟩]
      ⟨1, true, HBehavior.raisesStop⟩ (by decide) (by decide) rfl rfl (by decide)).2.1⟩

/-! ## The update worker entry (Client._update_worker, C7)

Before running the chain, the worker requires the client to be running
and the event's type to have a handler list; a new-message event that is
outgoing and still carries a sending_state key is dropped before any
phase runs (local echo suppression). -/

/-- Fields of an event that _update_worker inspects: the discriminator,
and for updateNewMessage events the message's is_outgoing flag and
whether the message still has a sending_state key. -/
structure WorkerEvent where
  ty : String
  is_outgoing : Bool
  has_sending_state : Bool
deriving DecidableEq

/-- Client._update_worker for one event: registered lists the update
types present as keys in self._handlers. -/
def update_worker (is_running : Bool) (registered : List String)
    (ev : WorkerEvent) (inits mains finals : List RHandler) : ChainTrace :=
  if is_running then
    if ev.ty ∈ registered then
      if ev.ty = "updateNewMessage" ∧ ev.is_outgoing = true
          ∧ ev.has_sending_state = true then
        ⟨[], [], []⟩
      else chainTrace inits mains finals
    else ⟨[], [], []⟩
  else ⟨[], [], []⟩

/-- C7: an updateNewMessage event whose message is outgoing and still
carries a sending_state marker is dropped before the chain: no
pre-phase, main-phase or post-phase handler runs for it. -/
theorem local_echo_suppressed (is_running : Bool) (registered : List String)
    (ev : WorkerEvent) (inits mains finals : List RHandler)
    (hty : ev.ty = "updateNewMessage") (hout : ev.is_outgoing = true)
    (hsend : ev.has_sending_state = true) :
    update_worker is_running registered ev inits mains finals = ⟨[], [], []⟩ := by
  unfold update_worker
  rcases is_running with _ | _
  · rfl
  · simp [hty, hout, hsend]

/-- Witness for local_echo_suppressed: an outgoing in-flight new-message
event with a full complement of registered handlers. -/
theorem local_echo_suppressed_witness :
    update_worker true ["updateNewMessage", "initializer", "finalizer"]
      ⟨"updateNewMessage", true, true⟩
      [⟨0, true, HBehavior.ok⟩] [⟨1, true, HBehavior.ok⟩] [⟨2, true, HBehavior.ok⟩]
      = ⟨[], [], []⟩ :=
  local_echo_suppressed true ["updateNewMessage", "initializer", "finalizer"]
    ⟨"updateNewMessage", true, true⟩
    [⟨0, true, HBehavior.ok⟩] [⟨1, true, HBehavior.ok⟩] [⟨2, true, HBehavior.ok⟩]
    rfl rfl rfl

/-! ## Inbound message classification (Client._process_update, C9)

The dispatcher first checks for the @type discriminator: when it is
missing the message is logged and dropped before the correlation lookup
and before any worker submission.  The pending-call table is modelled by
the list of registered correlation keys. -/

/-- Fields of an inbound transport message that _process_update inspects
(@client_id is deleted up front and does not affect classification). -/
structure RawMessage where
  ty : Option String
  extra : Option (String × Option String)
deriving DecidableEq

/-- Classification outcome of Client._process_update. -/
inductive ProcessAction
  | droppedNoType
  | resolvedCall (cid : String)
  | optionErrorLogged (opt : String)
  | extraIgnored
  | dispatched (ty : String)
deriving DecidableEq

/-- Client._process_update: given the pending correlation keys, classify
one inbound message and return the action together with the remaining
pending keys. -/
def process_update (pending : List String) (m : RawMessage) :
    ProcessAction × List String :=
  match m.ty with
  | none => (ProcessAction.droppedNoType, pending)
  | some ty =>
    match m.extra with
    | some (cid, opt) =>
      if cid ∈ pending then (ProcessAction.resolvedCall cid, pending.erase cid)
      else
        match opt with
        | some o =>
          if ty = "error" then (ProcessAction.optionErrorLogged o, pending)
          else (ProcessAction.extraIgnored, pending)
        | none => (ProcessAction.extraIgnored, pending)
    | none => (ProcessAction.dispatched ty, pending)

/-- C9: an inbound message without the @type discriminator is logged and
dropped: the pending-call table is unchanged (no Call Future resolved)
and the message is not dispatched to any handler. -/
theorem missing_discriminator_dropped (pending : List String) (m : RawMessage)
    (hty : m.ty = none) :
    process_update pending m = (ProcessAction.droppedNoType, pending) := by
  unfold process_update
  rw [hty]

/-- Witness for missing_discriminator_dropped at a message whose only
content is a correlation key matching a pending call. -/
theorem missing_discriminator_dropped_witness :
    process_update ["1"] ⟨none, some ("1", none)⟩ =
      (ProcessAction.droppedNoType, ["1"]) :=
  missing_discriminator_dropped ["1"] ⟨none, some ("1", none)⟩ rfl

end PytdbotSync
